import Mathlib

/-!
Verification of the lain-tv broadcast synchronization subsystem.

The definitions below are a shallow embedding of:
 - the broadcast-mode WebSocket server (backend websocket server:
   broadcast state, `generateAndBroadcast`, `broadcast` fan-out,
   sync-on-connect, the self-rescheduling 15-30 s timer loop), and
 - the client `AIChatPanel` message handler and speech queue
   (frontend `App.jsx`: the `sync` / `lain_broadcast` handlers,
   `processedMessages` de-duplication, `messageQueue`,
   `processMessageQueue` and `synthesizeSpeech`).

Machine integers are modelled as `Nat` (timestamps in milliseconds) and
the `Math.random()` draw as a rational in the interval from 0 to 1.
-/

set_option autoImplicit false

namespace LainTV

/-- Response of the inference service (`POST /generate`):
fields `response`, `mood`, `animation`. -/
structure LainResponse where
  response : String
  mood : String
  animation : String
deriving DecidableEq, Repr

/-- The broadcast message built by `generateAndBroadcast`:
`message`, `mood`, `animation`, `timestamp` (ISO time, modelled as ms),
`broadcast_id` (`Date.now()`). -/
structure BroadcastMessage where
  message : String
  mood : String
  animation : String
  timestamp : Nat
  broadcast_id : Nat
deriving DecidableEq, Repr

/-- Transport ready state of one WebSocket client handle. -/
inductive ReadyState where
  | CONNECTING
  | OPEN
  | CLOSING
  | CLOSED
deriving DecidableEq, Repr

/-- One registered viewer session: connection identifier and the
ready state of its transport handle. -/
structure Session where
  sid : Nat
  readyState : ReadyState
deriving DecidableEq, Repr

/-- Wire message sent from server to client: either the one-shot
connect-time `sync` envelope (`current_message`, `is_broadcasting`,
`last_broadcast_time`) or a `lain_broadcast` envelope. -/
inductive WireMsg where
  | sync (current_message : Option BroadcastMessage)
      (is_broadcasting : Bool) (last_broadcast_time : Nat)
  | lain_broadcast (m : BroadcastMessage)
deriving DecidableEq, Repr

/-- Server process state: the `clients` set (insertion-ordered),
`currentMessage`, the `isBroadcasting` guard flag, `lastBroadcastTime`,
and the Redis `broadcast_history` list (newest first, trimmed to 100). -/
structure WSServerState where
  clients : List Session
  currentMessage : Option BroadcastMessage
  isBroadcasting : Bool
  lastBroadcastTime : Nat
  broadcast_history : List BroadcastMessage
deriving DecidableEq, Repr

/-- Initial server state: no clients, `currentMessage = null`,
`isBroadcasting = false`, `lastBroadcastTime = 0`, empty history. -/
def serverInit : WSServerState :=
  { clients := [], currentMessage := none, isBroadcasting := false,
    lastBroadcastTime := 0, broadcast_history := [] }

/-- Fan-out function `broadcast(data)`: iterates over the client set and
sends the payload to each client whose `readyState === WebSocket.OPEN`;
every other client is skipped without error.  Returns the delivery list
(recipient session id paired with the payload). -/
def broadcast (clients : List Session) (data : WireMsg) : List (Nat × WireMsg) :=
  clients.filterMap (fun c =>
    if c.readyState = ReadyState.OPEN then some (c.sid, data) else none)

/-- One run of `generateAndBroadcast`, parameterised by the wall clock
`now` (`Date.now()`) and by the outcome of the awaited inference call:
`some r` when the call returned response `r`, `none` when it threw or
timed out.  If `isBroadcasting` is already true the tick returns at once
with no state change and no delivery.  Otherwise the flag is raised, and:
on failure the `catch` swallows the error and the `finally` clears the
flag, leaving `currentMessage`, `lastBroadcastTime` and the history
untouched; on success a `BroadcastMessage` is built (with
`broadcast_id = Date.now()`), stored as `currentMessage`, fanned out via
`broadcast`, `lastBroadcastTime` is updated and the message is pushed
onto the history which is trimmed to its newest 100 entries; the
`finally` then clears the flag. -/
def generateAndBroadcast (st : WSServerState) (now : Nat)
    (infer : Option LainResponse) : WSServerState × List (Nat × WireMsg) :=
  if st.isBroadcasting then (st, [])
  else
    match infer with
    | none => ({ st with isBroadcasting := false }, [])
    | some r =>
        let msg : BroadcastMessage :=
          { message := r.response, mood := r.mood, animation := r.animation,
            timestamp := now, broadcast_id := now }
        ({ st with currentMessage := some msg,
                   isBroadcasting := false,
                   lastBroadcastTime := now,
                   broadcast_history := (msg :: st.broadcast_history).take 100 },
         broadcast st.clients (WireMsg.lain_broadcast msg))

/-- The connect-time snapshot the server sends to exactly the new
session: current message, the generating flag and the last-broadcast
timestamp. -/
def syncPayload (st : WSServerState) : WireMsg :=
  WireMsg.sync st.currentMessage st.isBroadcasting st.lastBroadcastTime

/-- The random interval drawn each cycle of the broadcast loop:
`15000 + Math.random() * 15000` milliseconds, where the draw `r`
satisfies `0 ≤ r < 1`. -/
def intervalMs (r : ℚ) : ℚ := 15000 + r * 15000

/-- Fixed warm-up delay before the very first tick of the broadcast
loop: `setTimeout(..., 5000)` milliseconds. -/
def firstBroadcastDelay : Nat := 5000

/-- One iteration of the self-rescheduling loop body: awaits
`generateAndBroadcast` (a total function here, because the `catch`
swallows every failure) and then unconditionally runs `scheduleNext`,
drawing the next interval.  Returns the new state, the deliveries of
this tick, and the delay until the next tick. -/
def loopTick (st : WSServerState) (now : Nat) (infer : Option LainResponse)
    (r : ℚ) : WSServerState × List (Nat × WireMsg) × ℚ :=
  let out := generateAndBroadcast st now infer
  (out.1, out.2, intervalMs r)

/-- Events driving the server: a new WebSocket connection (the handler
adds the session with an open transport and immediately sends it the
sync snapshot), a disconnection (the close handler removes the session),
and a scheduler tick with its inference outcome. -/
inductive ServerEvent where
  | connect (sid : Nat)
  | disconnect (sid : Nat)
  | tick (now : Nat) (infer : Option LainResponse)
deriving DecidableEq, Repr

/-- One server event step, returning the new state and the messages
delivered by this event (recipient paired with payload). -/
def serverStep (st : WSServerState) : ServerEvent → WSServerState × List (Nat × WireMsg)
  | ServerEvent.connect sid =>
      ({ st with clients := st.clients ++ [{ sid := sid, readyState := ReadyState.OPEN }] },
       [(sid, syncPayload st)])
  | ServerEvent.disconnect sid =>
      ({ st with clients := st.clients.filter (fun c => c.sid ≠ sid) }, [])
  | ServerEvent.tick now infer => generateAndBroadcast st now infer

/-- Run a sequence of server events, concatenating the deliveries in
event order. -/
def runServer : WSServerState → List ServerEvent → WSServerState × List (Nat × WireMsg)
  | st, [] => (st, [])
  | st, e :: evs =>
      let out := serverStep st e
      let rest := runServer out.1 evs
      (rest.1, out.2 ++ rest.2)

/-- Projection of a delivery list onto one session: the sequence of
payloads that session receives, in delivery order. -/
def receivedBy (sid : Nat) (outs : List (Nat × WireMsg)) : List WireMsg :=
  (outs.filter (fun p => p.1 = sid)).map Prod.snd

/-- Abstract protocol events of the generation guard inside
`generateAndBroadcast`: a scheduler `tick` is the guarded entry of the
function (the check of `isBroadcasting` and, when it is clear, the start
of one inference call), and `complete` is the `finally` block of a
previously started call (success or failure alike), which clears the
flag.  A `complete` event only exists for a call that actually started,
hence its guard. -/
inductive SchedEvent where
  | tick
  | complete
deriving DecidableEq, Repr

/-- Observable counters of the generation guard protocol: the flag
itself, how many inference calls were ever started and how many have
reached their `finally`. -/
structure SchedState where
  generating : Bool
  started : Nat
  completed : Nat
deriving DecidableEq, Repr

/-- Initial guard state at process start. -/
def schedInit : SchedState :=
  { generating := false, started := 0, completed := 0 }

/-- Step of the generation guard: a tick that finds `generating = true`
returns immediately — the state is untouched, no call is started and
nothing is queued; a tick that finds it clear raises the flag and starts
one call.  A completion clears the flag. -/
def schedStep (s : SchedState) : SchedEvent → SchedState
  | SchedEvent.tick =>
      if s.generating then s
      else { generating := true, started := s.started + 1, completed := s.completed }
  | SchedEvent.complete =>
      if s.generating then
        { generating := false, started := s.started, completed := s.completed + 1 }
      else s

/-- Run the generation guard over a sequence of events. -/
def schedRun (evs : List SchedEvent) : SchedState :=
  evs.foldl schedStep schedInit

/-- Number of inference calls started but not yet completed. -/
def inFlight (s : SchedState) : Nat := s.started - s.completed

/-- One entry of the `messages` list rendered by the chat panel. -/
structure ChatMessage where
  user : String
  message : String
  timestamp : Nat
  mood : String
  animation : String
  broadcast_id : Option Nat
deriving DecidableEq, Repr

/-- Client-side state of `AIChatPanel`: the rendered `messages` list,
the insertion-ordered `processedMessages` id set (a JS `Set` iterates in
insertion order; the handler only adds ids that are absent, so a plain
duplicate-free list models it), and the `messageQueue` of texts awaiting
speech. -/
structure AIChatPanelState where
  messages : List ChatMessage
  processedMessages : List Nat
  messageQueue : List String
deriving DecidableEq, Repr

/-- Client state right after mounting: everything empty. -/
def clientInit : AIChatPanelState :=
  { messages := [], processedMessages := [], messageQueue := [] }

/-- Cleanup of old message ids: when the set has grown past 100 entries,
`Array.from(set).slice(-50)` keeps only the 50 most recently inserted
ids (the oldest are evicted). -/
def cleanupProcessed (l : List Nat) : List Nat :=
  if l.length > 100 then l.drop (l.length - 50) else l

/-- Handler of a `sync` envelope: when `current_message` is non-null its
text is appended to the rendered `messages` list immediately; nothing is
ever pushed onto `messageQueue` (the handler returns before the speech
path — "do not auto-play sync message, wait for next live broadcast"). -/
def syncStep (st : AIChatPanelState) (current_message : Option BroadcastMessage) :
    AIChatPanelState :=
  match current_message with
  | none => st
  | some m =>
      { st with messages := st.messages ++
          [{ user := "Lain", message := m.message, timestamp := m.timestamp,
             mood := m.mood, animation := m.animation,
             broadcast_id := some m.broadcast_id }] }

/-- Handler of a `lain_broadcast` envelope, with the response text, mood
and animation taken after the markdown-fence extraction step (that step
is the identity on texts without a fenced block; its output is what the
subsequent emptiness check and rendering consume).  The handler takes
the `broadcast_id` carried by the envelope (when the id field is absent
the code substitutes a fresh random id, so de-duplication only concerns
envelopes that do carry an id).  Steps, in source order: if the id was
already processed the message is skipped entirely; otherwise the id is
recorded and the id set trimmed; the emptiness guard (text falsy, or
falsy after trimming — i.e. every character is whitespace) then skips
the message; otherwise the message is appended to the rendered list and
its text pushed onto the speech queue. -/
def lainBroadcastStep (st : AIChatPanelState) (broadcast_id : Nat)
    (responseText mood animation : String) (timestamp : Nat) : AIChatPanelState :=
  if st.processedMessages.contains broadcast_id then st
  else
    let processed := cleanupProcessed (st.processedMessages ++ [broadcast_id])
    if responseText.data.all Char.isWhitespace then { st with processedMessages := processed }
    else
      { messages := st.messages ++
          [{ user := "Lain", message := responseText, timestamp := timestamp,
             mood := mood, animation := animation,
             broadcast_id := some broadcast_id }],
        processedMessages := processed,
        messageQueue := st.messageQueue ++ [responseText] }

/-- Envelopes a client session can receive over its socket. -/
inductive WsData where
  | sync (current_message : Option BroadcastMessage)
  | lain_broadcast (broadcast_id : Nat) (message mood animation : String)
      (timestamp : Nat)
  | welcome
  | errorMsg
deriving DecidableEq, Repr

/-- Dispatch of `ws.onmessage` on the envelope type; `welcome` and
`error` envelopes only log. -/
def clientStep (st : AIChatPanelState) : WsData → AIChatPanelState
  | WsData.sync cm => syncStep st cm
  | WsData.lain_broadcast id msg mood anim ts => lainBroadcastStep st id msg mood anim ts
  | WsData.welcome => st
  | WsData.errorMsg => st

/-- Run a client session over a sequence of received envelopes. -/
def runClient (st : AIChatPanelState) (msgs : List WsData) : AIChatPanelState :=
  msgs.foldl clientStep st

/-- One item of the speech queue for timing purposes: how long the
synthesis request takes and how long the synthesized audio lasts,
both in milliseconds. -/
structure QueueItem where
  synthMs : Nat
  audioMs : Nat
deriving DecidableEq, Repr

/-- The fixed pause `setTimeout(resolve, 500)` inserted between queue
items by `processMessageQueue`. -/
def queuePauseMs : Nat := 500

/-- Timing of the drain loop of `processMessageQueue`, started at time
`t`: for each item in FIFO order, `synthesizeSpeech` performs the
synthesis request and then `await audio.play()` — a promise that
resolves when playback STARTS; the `onended` callback is never awaited,
so `synthesizeSpeech` returns to the loop at playback start.  The loop
then waits the fixed 500 ms pause and processes the next item.  The
result lists, per item, the interval of its audio playback: the pair of
its playback start time and playback end time (start plus audio
duration). -/
def processQueueSchedule : Nat → List QueueItem → List (Nat × Nat)
  | _, [] => []
  | t, it :: rest =>
      let s := t + it.synthMs
      (s, s + it.audioMs) :: processQueueSchedule (s + queuePauseMs) rest

/-- Concrete delivery sequence for the de-duplication analysis: the
broadcasts with ids 0, 1, ..., 100 (all with non-blank text), followed
by a repeat delivery of id 0. -/
def dupTrace : List WsData :=
  ((List.range 101).map (fun i => WsData.lain_broadcast i "x" "neutral" "idle" i)) ++
  [WsData.lain_broadcast 0 "x" "neutral" "idle" 200]

/-- Server state with a single open session, used to exercise the
fan-out of a concrete tick. -/
def oneClientState : WSServerState :=
  { serverInit with clients := [{ sid := 1, readyState := ReadyState.OPEN }] }

/-- An inference outcome whose text is the empty string. -/
def emptyResponse : LainResponse :=
  { response := "", mood := "neutral", animation := "idle" }

/-! ### Helper lemmas -/

theorem schedStep_balance (s : SchedState) (e : SchedEvent)
    (h : s.started = s.completed + (if s.generating then 1 else 0)) :
    (schedStep s e).started =
      (schedStep s e).completed + (if (schedStep s e).generating then 1 else 0) := by
  cases e <;> simp only [schedStep] <;> split <;> simp_all

theorem schedRun_balance (evs : List SchedEvent) :
    (schedRun evs).started =
      (schedRun evs).completed + (if (schedRun evs).generating then 1 else 0) := by
  have H : ∀ (l : List SchedEvent) (s : SchedState),
      s.started = s.completed + (if s.generating then 1 else 0) →
      (l.foldl schedStep s).started =
        (l.foldl schedStep s).completed + (if (l.foldl schedStep s).generating then 1 else 0) := by
    intro l
    induction l with
    | nil => intro s h; simpa using h
    | cons e t ih => intro s h; exact ih _ (schedStep_balance s e h)
  simpa [schedRun] using H evs schedInit (by simp [schedInit])

/-! ### Claim theorems -/

/-- C2: on every tick that finds the generating flag raised, the tick is
skipped entirely (the guard state, including the count of started
inference calls, is untouched and nothing is queued), and over every
sequence of tick and completion events at most one generation is in
flight at any time. -/
theorem scheduler_at_most_one_in_flight (evs : List SchedEvent) :
    (∀ s : SchedState, s.generating = true → schedStep s SchedEvent.tick = s) ∧
    inFlight (schedRun evs) ≤ 1 := by
  constructor
  · intro s h
    simp [schedStep, h]
  · have h := schedRun_balance evs
    unfold inFlight
    split at h <;> omega

/-- Witness for C2 at a concrete guard state and a concrete event
sequence. -/
theorem scheduler_at_most_one_in_flight_witness :
    (schedStep { generating := true, started := 1, completed := 0 } SchedEvent.tick =
      { generating := true, started := 1, completed := 0 }) ∧
    inFlight (schedRun [SchedEvent.tick, SchedEvent.tick, SchedEvent.complete]) ≤ 1 :=
  ⟨(scheduler_at_most_one_in_flight []).1 _ rfl,
   (scheduler_at_most_one_in_flight [SchedEvent.tick, SchedEvent.tick, SchedEvent.complete]).2⟩

/-- C3: when the inference call of a tick fails (errors or times out),
the loop body publishes nothing — no delivery goes out, the current
message, history and last-broadcast timestamp are exactly as before the
attempt — the generating flag ends cleared, and the next tick is still
scheduled at the freshly drawn interval. -/
theorem generation_failure_publishes_nothing (st : WSServerState) (now : Nat) (r : ℚ)
    (h : st.isBroadcasting = false) :
    loopTick st now none r = (st, [], intervalMs r) := by
  cases st
  simp_all [loopTick, generateAndBroadcast]

/-- Witness for C3 at the initial server state. -/
theorem generation_failure_publishes_nothing_witness :
    serverInit.isBroadcasting = false ∧
    loopTick serverInit 99 none (1 / 2) = (serverInit, [], intervalMs (1 / 2)) :=
  ⟨rfl, generation_failure_publishes_nothing serverInit 99 (1 / 2) rfl⟩

/-- C9: for every cycle, the drawn delay lies in the configured range
of 15 to 30 seconds (15000 to 30000 ms), and the very first tick waits
a fixed 5000 ms warm-up. -/
theorem interval_range_and_fixed_warmup (r : ℚ) (h0 : 0 ≤ r) (h1 : r < 1) :
    (15000 ≤ intervalMs r ∧ intervalMs r < 30000) ∧ firstBroadcastDelay = 5000 := by
  refine ⟨⟨?_, ?_⟩, rfl⟩
  · unfold intervalMs
    nlinarith
  · unfold intervalMs
    nlinarith

/-- Witness for C9 at the draw one half. -/
theorem interval_range_and_fixed_warmup_witness :
    (0 ≤ (1 / 2 : ℚ) ∧ (1 / 2 : ℚ) < 1) ∧
    ((15000 ≤ intervalMs (1 / 2) ∧ intervalMs (1 / 2) < 30000) ∧ firstBroadcastDelay = 5000) :=
  ⟨⟨by norm_num, by norm_num⟩,
   interval_range_and_fixed_warmup (1 / 2) (by norm_num) (by norm_num)⟩

/-- C1 (divergence evaluation): with two queued items, each taking
2000 ms to synthesize and producing 3000 ms of audio, the drain loop of
`processMessageQueue` starts the second item's playback at 4500 ms,
while the first item's audio still plays until 5000 ms — because
`synthesizeSpeech` returns as soon as `audio.play()` resolves (playback
start) and the `onended` event is never awaited, the playbacks overlap
for 500 ms.  Items are still taken in FIFO order, but playback of an
item does not complete before playback of the next begins. -/
theorem playback_overlaps_when_play_resolves_early :
    processQueueSchedule 0
        [{ synthMs := 2000, audioMs := 3000 }, { synthMs := 2000, audioMs := 3000 }] =
      [(2000, 5000), (4500, 7500)] ∧ 4500 < 5000 := by
  decide

/-- C8 counterexample: a tick whose inference call returns an empty
response text publishes it unchecked — the scheduler sets a
`BroadcastMessage` with empty text as the current message and fans the
empty line out to the open session. -/
theorem scheduler_publishes_empty_text :
    (generateAndBroadcast oneClientState 1000 (some emptyResponse)).1.currentMessage =
      some { message := "", mood := "neutral", animation := "idle",
             timestamp := 1000, broadcast_id := 1000 } ∧
    (generateAndBroadcast oneClientState 1000 (some emptyResponse)).2 =
      [(1, WireMsg.lain_broadcast
            { message := "", mood := "neutral", animation := "idle",
              timestamp := 1000, broadcast_id := 1000 })] := by
  constructor <;> rfl

/-- C8 amended: the server publishes whatever text the inference service
returns, empty included; it is the client that filters — a broadcast
whose text is empty or whitespace-only is neither displayed nor enqueued
for speech by `AIChatPanel`. -/
theorem empty_broadcast_filtered_by_client (st : AIChatPanelState) (id ts : Nat)
    (text mood anim : String) (h : text.data.all Char.isWhitespace = true) :
    (lainBroadcastStep st id text mood anim ts).messages = st.messages ∧
    (lainBroadcastStep st id text mood anim ts).messageQueue = st.messageQueue := by
  unfold lainBroadcastStep
  split
  · exact ⟨rfl, rfl⟩
  · simp [h]

/-- Witness for the amended C8 at the empty string on a fresh client. -/
theorem empty_broadcast_filtered_by_client_witness :
    "".data.all Char.isWhitespace = true ∧
    ((lainBroadcastStep clientInit 0 "" "neutral" "idle" 5).messages = clientInit.messages ∧
     (lainBroadcastStep clientInit 0 "" "neutral" "idle" 5).messageQueue = clientInit.messageQueue) :=
  ⟨rfl, empty_broadcast_filtered_by_client clientInit 0 5 "" "neutral" "idle" rfl⟩

set_option maxRecDepth 100000 in
/-- C5 counterexample: the de-duplication set is evicted down to the 50
newest ids once it exceeds 100 entries, so after the broadcasts with ids
0 through 100 the id 0 has been evicted, and a repeat delivery of id 0
is processed and displayed a second time: the trace `dupTrace` delivers
the same id 0 twice yet ends with two displayed occurrences of it. -/
theorem duplicate_id_reprocessed_after_eviction :
    ((runClient clientInit dupTrace).messages.filter
        (fun m => m.broadcast_id = some 0)).length = 2 := by
  decide

/-- C5 amended: a duplicate delivery is discarded as long as its id is
still in the retained set (so an immediate duplicate is always
discarded and a fresh non-blank broadcast is displayed exactly once);
the retained set stays bounded by 100 ids after every message; and on a
fresh id the set becomes the delivery order suffix obtained by evicting
the oldest entries — all entries but the newest 50 — exactly when the
cap of 100 is exceeded. -/
theorem dedup_idempotent_until_eviction :
    (∀ (st : AIChatPanelState) (id : Nat) (text mood anim : String) (ts : Nat),
        st.processedMessages.contains id = true →
        lainBroadcastStep st id text mood anim ts = st) ∧
    (∀ (st : AIChatPanelState) (id : Nat) (text mood anim : String) (ts : Nat),
        st.processedMessages.contains id = false →
        text.data.all Char.isWhitespace = false →
        (lainBroadcastStep st id text mood anim ts).messages =
          st.messages ++ [{ user := "Lain", message := text, timestamp := ts,
                            mood := mood, animation := anim, broadcast_id := some id }]) ∧
    (∀ (st : AIChatPanelState) (id : Nat) (text mood anim : String) (ts : Nat),
        st.processedMessages.length ≤ 100 →
        (lainBroadcastStep st id text mood anim ts).processedMessages.length ≤ 100) ∧
    (∀ (st : AIChatPanelState) (id : Nat) (text mood anim : String) (ts : Nat),
        st.processedMessages.contains id = false →
        (lainBroadcastStep st id text mood anim ts).processedMessages =
          (st.processedMessages ++ [id]).drop
            (if 100 < st.processedMessages.length + 1
             then st.processedMessages.length + 1 - 50 else 0)) := by
  refine ⟨?_, ?_, ?_, ?_⟩
  · intro st id text mood anim ts h
    have hm : id ∈ st.processedMessages := by simpa using h
    simp [lainBroadcastStep, hm]
  · intro st id text mood anim ts h hb
    have hm : id ∉ st.processedMessages := by simpa using h
    have hb2 : ¬ ∀ x ∈ text.data, x.isWhitespace = true := by simpa using hb
    simp [lainBroadcastStep, hm, hb2]
  · intro st id text mood anim ts h
    have hlen : (cleanupProcessed (st.processedMessages ++ [id])).length ≤ 100 := by
      unfold cleanupProcessed
      split
      · simp only [List.length_drop, List.length_append, List.length_singleton]
        omega
      · rename_i hle
        simp only [List.length_append, List.length_singleton] at *
        omega
    unfold lainBroadcastStep
    split
    · exact h
    · split <;> simpa using hlen
  · intro st id text mood anim ts h
    have key : cleanupProcessed (st.processedMessages ++ [id]) =
        (st.processedMessages ++ [id]).drop
          (if 100 < st.processedMessages.length + 1
           then st.processedMessages.length + 1 - 50 else 0) := by
      unfold cleanupProcessed
      simp only [List.length_append, List.length_singleton]
      split
      · rfl
      · exact (List.drop_zero _).symm
    unfold lainBroadcastStep
    rw [if_neg (by simpa using h)]
    split <;> simpa using key

/-- Witness for the amended C5 at concrete states. -/
theorem dedup_idempotent_until_eviction_witness :
    (([5] : List Nat).contains 5 = true ∧
      lainBroadcastStep { messages := [], processedMessages := [5], messageQueue := [] }
          5 "x" "m" "a" 0 =
        { messages := [], processedMessages := [5], messageQueue := [] }) ∧
    ((lainBroadcastStep clientInit 0 "x" "m" "a" 0).messages =
      clientInit.messages ++ [{ user := "Lain", message := "x", timestamp := 0,
                                mood := "m", animation := "a", broadcast_id := some 0 }]) ∧
    ((lainBroadcastStep clientInit 0 "x" "m" "a" 0).processedMessages.length ≤ 100) ∧
    ((lainBroadcastStep clientInit 0 "x" "m" "a" 0).processedMessages =
      (clientInit.processedMessages ++ [0]).drop
        (if 100 < clientInit.processedMessages.length + 1
         then clientInit.processedMessages.length + 1 - 50 else 0)) :=
  ⟨⟨rfl, dedup_idempotent_until_eviction.1 _ 5 "x" "m" "a" 0 rfl⟩,
   dedup_idempotent_until_eviction.2.1 clientInit 0 "x" "m" "a" 0 rfl (by decide),
   dedup_idempotent_until_eviction.2.2.1 clientInit 0 "x" "m" "a" 0 (by decide),
   dedup_idempotent_until_eviction.2.2.2 clientInit 0 "x" "m" "a" 0 rfl⟩

theorem runClient_sync_only_queue (syncs : List (Option BroadcastMessage)) :
    ∀ st : AIChatPanelState,
      (runClient st (syncs.map WsData.sync)).messageQueue = st.messageQueue := by
  induction syncs with
  | nil => intro st; rfl
  | cons c t ih =>
      intro st
      have step : (clientStep st (WsData.sync c)).messageQueue = st.messageQueue := by
        cases c <;> rfl
      calc (runClient st ((c :: t).map WsData.sync)).messageQueue
          = (runClient (clientStep st (WsData.sync c)) (t.map WsData.sync)).messageQueue := rfl
        _ = (clientStep st (WsData.sync c)).messageQueue := ih _
        _ = st.messageQueue := step

/-- C4: a session that receives only sync envelopes never has anything
enqueued on its playback queue — in particular a session that connects
and receives just the one connect-time sync has an empty queue — while
a sync carrying a current message appends its text to the rendered
messages immediately; no sync ever touches the queue. -/
theorem sync_displays_but_never_enqueues :
    (∀ syncs : List (Option BroadcastMessage),
        (runClient clientInit (syncs.map WsData.sync)).messageQueue = []) ∧
    (∀ (st : AIChatPanelState) (m : BroadcastMessage),
        (syncStep st (some m)).messages = st.messages ++
          [{ user := "Lain", message := m.message, timestamp := m.timestamp,
             mood := m.mood, animation := m.animation,
             broadcast_id := some m.broadcast_id }]) ∧
    (∀ (st : AIChatPanelState) (cm : Option BroadcastMessage),
        (syncStep st cm).messageQueue = st.messageQueue) := by
  refine ⟨?_, ?_, ?_⟩
  · intro syncs
    exact runClient_sync_only_queue syncs clientInit
  · intro st m
    rfl
  · intro st cm
    cases cm <;> rfl

/-- C7: the fan-out delivers the payload exactly to the registered
sessions whose transport is open, in registration order; and a session
whose transport is not open is silently invisible to the fan-out — the
delivery list with the broken session present equals the delivery list
with it absent, so a broken transport never disturbs delivery to the
remaining sessions. -/
theorem broadcast_delivers_to_open_skips_rest :
    (∀ (clients : List Session) (data : WireMsg),
        broadcast clients data =
          (clients.filter (fun c => c.readyState = ReadyState.OPEN)).map
            (fun c => (c.sid, data))) ∧
    (∀ (l1 l2 : List Session) (b : Session) (data : WireMsg),
        b.readyState ≠ ReadyState.OPEN →
        broadcast (l1 ++ b :: l2) data = broadcast (l1 ++ l2) data) := by
  constructor
  · intro clients data
    induction clients with
    | nil => rfl
    | cons c t ih =>
        by_cases hc : c.readyState = ReadyState.OPEN <;>
          simp [broadcast, List.filterMap_cons, List.filter_cons, hc] <;>
          simpa [broadcast] using ih
  · intro l1 l2 b data h
    simp [broadcast, List.filterMap_append, List.filterMap_cons, h]

/-- Witness for C7: with sessions 1 and 3 open and session 2 closed,
the fan-out with the broken session 2 present equals the one without
it — sessions 1 and 3 still receive the payload. -/
theorem broadcast_delivers_to_open_skips_rest_witness :
    (Session.mk 2 ReadyState.CLOSED).readyState ≠ ReadyState.OPEN ∧
    broadcast ([Session.mk 1 ReadyState.OPEN] ++
        Session.mk 2 ReadyState.CLOSED :: [Session.mk 3 ReadyState.OPEN])
        (WireMsg.sync none false 0) =
      broadcast ([Session.mk 1 ReadyState.OPEN] ++ [Session.mk 3 ReadyState.OPEN])
        (WireMsg.sync none false 0) :=
  ⟨by decide,
   broadcast_delivers_to_open_skips_rest.2 [Session.mk 1 ReadyState.OPEN]
     [Session.mk 3 ReadyState.OPEN] (Session.mk 2 ReadyState.CLOSED)
     (WireMsg.sync none false 0) (by decide)⟩

theorem receivedBy_append (sid : Nat) (xs ys : List (Nat × WireMsg)) :
    receivedBy sid (xs ++ ys) = receivedBy sid xs ++ receivedBy sid ys := by
  simp [receivedBy, List.filter_append]

theorem receivedBy_broadcast_nil (sid : Nat) (clients : List Session) (data : WireMsg)
    (h : ∀ c ∈ clients, c.sid ≠ sid) :
    receivedBy sid (broadcast clients data) = [] := by
  induction clients with
  | nil => rfl
  | cons c t ih =>
      have hc : c.sid ≠ sid := h c (List.mem_cons_self c t)
      have ht : ∀ x ∈ t, x.sid ≠ sid := fun x hx => h x (List.mem_cons_of_mem c hx)
      have ih2 := ih ht
      by_cases ho : c.readyState = ReadyState.OPEN
      · simpa [broadcast, List.filterMap_cons, ho, receivedBy, List.filter_cons, hc]
          using ih2
      · simpa [broadcast, List.filterMap_cons, ho, receivedBy] using ih2

theorem receivedBy_broadcast_mem (sid : Nat) (clients : List Session) (data w : WireMsg)
    (hw : w ∈ receivedBy sid (broadcast clients data)) : w = data := by
  unfold receivedBy at hw
  rcases List.mem_map.mp hw with ⟨p, hp, hpw⟩
  have hp2 := List.mem_of_mem_filter hp
  unfold broadcast at hp2
  rcases List.mem_filterMap.mp hp2 with ⟨c, _, hc⟩
  by_cases ho : c.readyState = ReadyState.OPEN
  · rw [if_pos ho] at hc
    injection hc with h2
    rw [← hpw, ← h2]
  · rw [if_neg ho] at hc
    cases hc

theorem runServer_append (st : WSServerState) (l1 l2 : List ServerEvent) :
    runServer st (l1 ++ l2) =
      ((runServer (runServer st l1).1 l2).1,
       (runServer st l1).2 ++ (runServer (runServer st l1).1 l2).2) := by
  induction l1 generalizing st with
  | nil => simp [runServer]
  | cons e t ih =>
      have h1 : runServer st ((e :: t) ++ l2) =
          ((runServer (serverStep st e).1 (t ++ l2)).1,
           (serverStep st e).2 ++ (runServer (serverStep st e).1 (t ++ l2)).2) := rfl
      have h2 : runServer st (e :: t) =
          ((runServer (serverStep st e).1 t).1,
           (serverStep st e).2 ++ (runServer (serverStep st e).1 t).2) := rfl
      rw [h1, ih (serverStep st e).1, h2]
      simp [List.append_assoc]

theorem runServer_unconnected_receives_nothing (evs : List ServerEvent) :
    ∀ (st : WSServerState) (sid : Nat),
      (∀ c ∈ st.clients, c.sid ≠ sid) →
      ServerEvent.connect sid ∉ evs →
      receivedBy sid (runServer st evs).2 = [] ∧
      (∀ c ∈ (runServer st evs).1.clients, c.sid ≠ sid) := by
  induction evs with
  | nil => intro st sid h _; exact ⟨rfl, h⟩
  | cons e t ih =>
      intro st sid h hne
      have hnt : ServerEvent.connect sid ∉ t := fun hm => hne (List.mem_cons_of_mem _ hm)
      have hstep : receivedBy sid (serverStep st e).2 = [] ∧
          (∀ c ∈ (serverStep st e).1.clients, c.sid ≠ sid) := by
        cases e with
        | connect sid2 =>
            have hne2 : sid2 ≠ sid := by
              intro hs
              exact hne (by simp [hs])
            constructor
            · simp [serverStep, receivedBy, List.filter_cons, hne2]
            · intro c hc
              simp only [serverStep, List.mem_append, List.mem_singleton] at hc
              rcases hc with hc | hc
              · exact h c hc
              · rw [hc]
                exact hne2
        | disconnect sid2 =>
            refine ⟨rfl, ?_⟩
            intro c hc
            simp only [serverStep, List.mem_filter] at hc
            exact h c hc.1
        | tick now infer =>
            have hcl : (generateAndBroadcast st now infer).1.clients = st.clients := by
              unfold generateAndBroadcast
              split
              · rfl
              · cases infer <;> rfl
            have hout : receivedBy sid (generateAndBroadcast st now infer).2 = [] := by
              unfold generateAndBroadcast
              split
              · rfl
              · cases infer with
                | none => rfl
                | some r => exact receivedBy_broadcast_nil sid st.clients _ h
            refine ⟨hout, ?_⟩
            intro c hc
            rw [show (serverStep st (ServerEvent.tick now infer)).1 =
                  (generateAndBroadcast st now infer).1 from rfl, hcl] at hc
            exact h c hc
      have hrec := ih (serverStep st e).1 sid hstep.2 hnt
      have hrun : runServer st (e :: t) =
          ((runServer (serverStep st e).1 t).1,
           (serverStep st e).2 ++ (runServer (serverStep st e).1 t).2) := rfl
      rw [hrun]
      exact ⟨by simp [receivedBy_append, hstep.1, hrec.1], hrec.2⟩

theorem runServer_nonconnect_msgs_are_broadcasts (evs : List ServerEvent) :
    ∀ (st : WSServerState) (sid : Nat),
      ServerEvent.connect sid ∉ evs →
      ∀ w ∈ receivedBy sid (runServer st evs).2, ∃ m, w = WireMsg.lain_broadcast m := by
  induction evs with
  | nil =>
      intro st sid _ w hw
      simp [runServer, receivedBy] at hw
  | cons e t ih =>
      intro st sid hne w hw
      have hnt : ServerEvent.connect sid ∉ t := fun hm => hne (List.mem_cons_of_mem _ hm)
      have hrun : runServer st (e :: t) =
          ((runServer (serverStep st e).1 t).1,
           (serverStep st e).2 ++ (runServer (serverStep st e).1 t).2) := rfl
      rw [hrun, receivedBy_append] at hw
      rcases List.mem_append.mp hw with hw1 | hw2
      · cases e with
        | connect sid2 =>
            have hne2 : sid2 ≠ sid := by
              intro hs
              exact hne (by simp [hs])
            simp [serverStep, receivedBy, List.filter_cons, hne2] at hw1
        | disconnect sid2 =>
            simp [serverStep, receivedBy] at hw1
        | tick now infer =>
            revert hw1
            show w ∈ receivedBy sid (generateAndBroadcast st now infer).2 → _
            unfold generateAndBroadcast
            split
            · intro hw1
              simp [receivedBy] at hw1
            · cases infer with
              | none =>
                  intro hw1
                  simp [receivedBy] at hw1
              | some r =>
                  intro hw1
                  exact ⟨_, receivedBy_broadcast_mem sid st.clients _ w hw1⟩
      · exact ih (serverStep st e).1 sid hnt w hw2

/-- C6: the connect handler of a new session emits exactly one message,
addressed to that session alone: the sync snapshot of the state at
connect time, carrying the current message (or empty), the generating
flag and the last-broadcast timestamp.  Over a whole trace in which the
session connects exactly once, the very first payload the session
receives is that snapshot, and everything it receives afterwards is
live broadcast fan-out. -/
theorem connect_receives_one_sync_first (pre post : List ServerEvent) (sid : Nat)
    (hpre : ServerEvent.connect sid ∉ pre) (hpost : ServerEvent.connect sid ∉ post) :
    serverStep (runServer serverInit pre).1 (ServerEvent.connect sid) =
      ({ (runServer serverInit pre).1 with
          clients := (runServer serverInit pre).1.clients ++
            [{ sid := sid, readyState := ReadyState.OPEN }] },
       [(sid, syncPayload (runServer serverInit pre).1)]) ∧
    ∃ rest : List WireMsg,
      receivedBy sid (runServer serverInit (pre ++ ServerEvent.connect sid :: post)).2 =
        syncPayload (runServer serverInit pre).1 :: rest ∧
      ∀ w ∈ rest, ∃ m, w = WireMsg.lain_broadcast m := by
  have hA := runServer_unconnected_receives_nothing pre serverInit sid
    (by simp [serverInit]) hpre
  refine ⟨rfl,
    ⟨receivedBy sid
       (runServer (serverStep (runServer serverInit pre).1 (ServerEvent.connect sid)).1 post).2,
     ?_, ?_⟩⟩
  · rw [runServer_append, receivedBy_append, hA.1]
    have hstep : runServer (runServer serverInit pre).1 (ServerEvent.connect sid :: post) =
        ((runServer (serverStep (runServer serverInit pre).1 (ServerEvent.connect sid)).1 post).1,
         [(sid, syncPayload (runServer serverInit pre).1)] ++
           (runServer (serverStep (runServer serverInit pre).1 (ServerEvent.connect sid)).1 post).2) := rfl
    rw [hstep]
    simp [receivedBy_append, receivedBy, List.filter_cons]
  · exact fun w hw =>
      runServer_nonconnect_msgs_are_broadcasts post _ sid hpost w hw

/-- Witness for C6 with a failure tick before the connect of session 7
and a failure tick after it. -/
theorem connect_receives_one_sync_first_witness :
    (ServerEvent.connect 7 ∉ [ServerEvent.tick 10 none] ∧
     ServerEvent.connect 7 ∉ [ServerEvent.tick 20 none]) ∧
    (serverStep (runServer serverInit [ServerEvent.tick 10 none]).1 (ServerEvent.connect 7) =
      ({ (runServer serverInit [ServerEvent.tick 10 none]).1 with
          clients := (runServer serverInit [ServerEvent.tick 10 none]).1.clients ++
            [{ sid := 7, readyState := ReadyState.OPEN }] },
       [(7, syncPayload (runServer serverInit [ServerEvent.tick 10 none]).1)]) ∧
     ∃ rest : List WireMsg,
       receivedBy 7 (runServer serverInit
           ([ServerEvent.tick 10 none] ++ ServerEvent.connect 7 :: [ServerEvent.tick 20 none])).2 =
         syncPayload (runServer serverInit [ServerEvent.tick 10 none]).1 :: rest ∧
       ∀ w ∈ rest, ∃ m, w = WireMsg.lain_broadcast m) :=
  ⟨⟨by decide, by decide⟩,
   connect_receives_one_sync_first [ServerEvent.tick 10 none] [ServerEvent.tick 20 none] 7
     (by decide) (by decide)⟩

end LainTV
